import Mathlib

/-!
Verification development for the theone-server data-access layer
(`db.js`, given as `src/unnamed/part_000` lines 90-378, and its
collaborators).  The JavaScript source is shallowly embedded: SQL text is
`List Char`, JavaScript parameter values are the inductive `Param`,
driver calls are represented symbolically, and each method of the `Db`
class becomes a pure Lean function over an explicit state.  Object
aliasing is not modelled: parameter lists are values, with each position
holding its own (sub)structure.
-/

/-- Execution mode of a statement: `conn.query` (non-prepared) or
`conn.execute` (prepared).  In `_exec` the mode is the `type` argument. -/
inductive Mode where
  | query
  | execute
deriving DecidableEq, Repr

/-- A JavaScript parameter value as it appears in the `params` argument of
`_exec`: a scalar number, a string, or an array (possibly of arrays). -/
inductive Param where
  | int : Int → Param
  | str : List Char → Param
  | arr : List Param → Param

/-- Error taxonomy of the spec, mapped onto the `throw new Error(...)`
sites of the source.  `driver` carries the original driver message, the
failing SQL and the size-capped parameter summary appended by the
`catch` block of `_exec` (lines 227-234). -/
inductive DbErr where
  | concurrency : List Char → DbErr
  | mustInTrans : List Char → DbErr
  | patternErr : DbErr
  | paramCount : DbErr
  | tooManyRows : DbErr
  | configErr : DbErr
  | typeErr : DbErr
  | driver : List Char → List Char → List Param → DbErr

/-- One physical statement dispatched to the driver: its mode, the SQL
text after template substitution, and the flattened parameter list. -/
structure ExecCall where
  mode : Mode
  sql : List Char
  params : List Param

/-- The decision `_exec` takes for one logical call: a direct execution
(no array-valued parameter), a single expanded statement (pattern, one
shot), or an ordered list of chunked executions. -/
inductive ExecPlan where
  | direct : Mode → List Char → List Param → ExecPlan
  | single : Mode → List Char → List Param → ExecPlan
  | chunked : List ExecCall → ExecPlan

/-- Per-call options of `_exec`.  `maxRow = none` models a call whose
`options` object has no own `maxRow` property (the
`toUtil.hasOwnPropertySafe(options, 'maxRow')` test); claims use the
default template expression, so the `regexp` override is not modelled.
The `fields` option only selects between `rt` and `rt[0]` on the driver
response and does not affect the plan. -/
structure ExecOptions where
  maxRow : Option Nat

/-- `xs.slice(a, b)` of JavaScript arrays (elements from `a` inclusive to
`b` exclusive). -/
def jsSlice {α : Type} (xs : List α) (a b : Nat) : List α :=
  (xs.drop a).take (b - a)

/-- Modelled from the spec: `toUtil.repeatStr` comes from `lib/util.js`,
which is not among the provided sources.  Per the spec's expansion rule -
"replacing the template with N copies of the fragment joined by the
separator" - and its call sites `pattern[1] + repeatStr(pattern[2] +
pattern[1], n - 1)`, `repeatStr s n` is `s` repeated `n` times. -/
def repeatStr (s : List Char) : Nat → List Char
  | 0 => []
  | n + 1 => s ++ repeatStr s n

/-- The three literal dots terminating the default template expression. -/
def ellip : List Char := ['.', '.', '.']

/-- `true` when no character of `cs` is a line terminator: in the default
template expression `.` ranges over any character except a newline. -/
def noNl (cs : List Char) : Bool := cs.all (fun c => c != '\n')

/-- After group 1 ended at index `j`, can greedy group 2 end right before
index `k`?  Requires `k` past `j`, no newline inside group 2, and the
literal `...` at `k`. -/
def validK (s : List Char) (j k : Nat) : Bool :=
  decide (j + 1 ≤ k) && noNl (jsSlice s (j + 1) k) && ellip.isPrefixOf (s.drop k)

/-- With the match starting at index `i`, can greedy group 1 end right
before index `j`?  Requires `}` at `j`, no newline inside group 1 and a
completable remainder. -/
def validJ (s : List Char) (i j : Nat) : Bool :=
  decide (i < j) && decide (s.get? j = some '\x7d') && noNl (jsSlice s (i + 1) j)
    && !((List.range s.length).filter (validK s j)).isEmpty

/-- Can a match of the default template expression start at index `i`? -/
def validI (s : List Char) (i : Nat) : Bool :=
  decide (s.get? i = some '\x7b') && !((List.range s.length).filter (validJ s i)).isEmpty

/-- `sql.match(/\x7b(.*)\x7d(.*)\.\.\./)` (line 186): leftmost match
start, then the backtracking-greedy choice of group 1 (maximal `j`), then
of group 2 (maximal `k`).  Returns `(match[0], match[1], match[2])`:
the whole matched span, the repeatable fragment, and the separator. -/
def matchTpl (s : List Char) : Option (List Char × List Char × List Char) :=
  match ((List.range s.length).filter (validI s)).head? with
  | none => none
  | some i =>
    match ((List.range s.length).filter (validJ s i)).getLast? with
    | none => none
    | some j =>
      match ((List.range s.length).filter (validK s j)).getLast? with
      | none => none
      | some k => some (jsSlice s i (k + 3), jsSlice s (i + 1) j, jsSlice s (j + 1) k)

/-- Index of the first occurrence of `target` in `s`, if any. -/
def firstOccIdx (target s : List Char) : Option Nat :=
  ((List.range (s.length + 1)).filter (fun k => target.isPrefixOf (s.drop k))).head?

/-- `s.replace(target, repl)` with a string search value: replaces the
first occurrence only (the replacement text of the source contains no
`$` patterns). -/
def replaceFirst (s target repl : List Char) : List Char :=
  match firstOccIdx target s with
  | none => s
  | some k => s.take k ++ repl ++ s.drop (k + target.length)

/-- `pattern[0].replace(/[^?]/g, '').length` (line 189): the number of
`?` placeholders inside the matched span. -/
def countQm (s : List Char) : Nat := (s.filter (fun c => c = '?')).length

/-- A whitespace character of the `\s` class, as used by
`/^\s*(INSERT|REPLACE)/i` (ASCII part; the inputs contain no exotic
whitespace). -/
def isWs (c : Char) : Bool :=
  c = ' ' || c = '\t' || c = '\n' || c = '\r' || c = '\x0b' || c = '\x0c'

/-- Case-insensitive prefix test against an upper-case pattern. -/
def startsWithCI : List Char → List Char → Bool
  | [], _ => true
  | _ :: _, [] => false
  | p :: ps, c :: cs => decide (c.toUpper = p) && startsWithCI ps cs

/-- `/^\s*(INSERT|REPLACE)/i.test(sql)` (line 197). -/
def isInsertLike (s : List Char) : Bool :=
  startsWithCI "INSERT".toList (s.dropWhile isWs)
    || startsWithCI "REPLACE".toList (s.dropWhile isWs)

/-- `Array.isArray(p)` on a parameter value. -/
def isArrP : Param → Bool
  | .arr _ => true
  | _ => false

/-- `Array.isArray(data[0])` (line 190): shape detection of the batch
source; an empty array has `data[0] === undefined`, which is not an
array. -/
def isArrHead (d : List Param) : Bool :=
  match d.head? with
  | some (.arr _) => true
  | _ => false

/-- The batch-source array at index `i` of the parameter list. -/
def getArrAt (ps : List Param) (i : Nat) : List Param :=
  match ps.get? i with
  | some (.arr xs) => xs
  | _ => []

/-- `left.concat(...data, right)`: spreading `data` passes each element
as its own argument to `concat`, which appends array arguments
element-wise (one level) and other arguments as such. -/
def concatSpread : List Param → List Param
  | [] => []
  | .arr xs :: t => xs ++ concatSpread t
  | p :: t => p :: concatSpread t

/-- Lines 190-192: `patternNum = is2d ? data.length : data.length /
placeNum` followed by the guard `patternNum > 0 &&
Number.isInteger(patternNum)`.  For flat data the JavaScript quotient is
a float (`NaN` or `Infinity` when `placeNum` is 0), so the guard demands
a positive exact quotient; the result is the group count, `none` meaning
the `'pattern 参数个数不匹配'` error. -/
def groupCount (is2d : Bool) (placeNum len : Nat) : Option Nat :=
  if is2d then
    if 0 < len then some len else none
  else
    if 0 < placeNum && decide (placeNum ∣ len) && 0 < len then
      some (len / placeNum)
    else none

/-- Lines 209-223, the chunked loop, after the effective cap `maxRow` has
been fixed: the `for` loop dispatches `patternNum / maxRow` full-cap
executions in ascending slice order, and when `rest = patternNum -
maxRow * (patternNum / maxRow)` is positive one more execution rebuilt
with `rest` groups, forced to `query` mode when `rest > 10`.  The
result list of `_exec` collects `rt[0]` of these executions in this
order. -/
def chunkExecs (mode : Mode) (sql whole frag sep : List Char)
    (left right data : List Param) (is2d : Bool)
    (placeNum patternNum maxRow : Nat) : List ExecCall :=
  (List.range (patternNum / maxRow)).map (fun i =>
    ⟨mode, replaceFirst sql whole (frag ++ repeatStr (sep ++ frag) (maxRow - 1)),
     left ++ concatSpread (jsSlice data (i * (if is2d then maxRow else maxRow * placeNum))
       ((i + 1) * (if is2d then maxRow else maxRow * placeNum))) ++ right⟩)
  ++ (if patternNum - maxRow * (patternNum / maxRow) > 0 then
      [⟨(if patternNum - maxRow * (patternNum / maxRow) > 10 then Mode.query else mode),
        replaceFirst sql whole
          (frag ++ repeatStr (sep ++ frag) (patternNum - maxRow * (patternNum / maxRow) - 1)),
        left ++ concatSpread (data.drop
          (if is2d then patternNum / maxRow * maxRow else patternNum / maxRow * maxRow * placeNum))
          ++ right⟩]
    else [])

/-- Lines 179-225 of `_exec`: the pure decision which physical statements
a logical call dispatches.  Driver interaction, the in-flight marker and
error enrichment are modelled separately (`execRun`). -/
def execPlan (mode : Mode) (sql : List Char) (params : List Param)
    (opts : ExecOptions) : Except DbErr ExecPlan :=
  match params.findIdx? isArrP with
  | none => .ok (.direct mode sql params)
  | some pi =>
    match matchTpl sql with
    | none => .error .patternErr
    | some (whole, frag, sep) =>
      let data := getArrAt params pi
      let placeNum := countQm whole
      let is2d := isArrHead data
      match groupCount is2d placeNum data.length with
      | none => .error .paramCount
      | some patternNum =>
        let leftParams := params.take pi
        let rightParams := params.drop (pi + 1)
        if opts.maxRow.isNone && !isInsertLike sql then
          .ok (.single mode
            (replaceFirst sql whole (frag ++ repeatStr (sep ++ frag) (patternNum - 1)))
            (leftParams ++ concatSpread data ++ rightParams))
        else
          let mr0 := opts.maxRow.getD 1000
          let maxRow := if mr0 = 0 then patternNum else mr0
          .ok (.chunked (chunkExecs mode sql whole frag sep leftParams rightParams data
            is2d placeNum patternNum maxRow))

/-- The elision note `` `... ${n} items ...` `` pushed into truncated
summaries (lines 229 and 231). -/
def elisionNote (n : Nat) : List Char :=
  "... ".toList ++ (Nat.repr n).toList ++ " items ...".toList

/-- The `splice` applied to one summary entry (line 231): a nested array
of more than 5 elements is truncated in place to its first 5 elements
plus an elision note; everything else is left alone. -/
def capOne : Param → Param
  | .arr xs =>
    if 5 < xs.length then .arr (xs.take 5 ++ [.str (elisionNote (xs.length - 5))])
    else .arr xs
  | p => p

/-- Lines 228-232: the summary placed into the enriched error message -
the first 50 parameters, an elision note when more were passed, each
nested array capped at 5 elements. -/
def summaryOf (params : List Param) : List Param :=
  (params.take 50
    ++ (if 50 < params.length then [Param.str (elisionNote (params.length - 50))] else [])).map
    capOne

/-- What the caller's own `params` array holds after the `catch` block
ran: `params.slice(0, 50)` copies the outer array but shares the nested
ones, so the `splice` of line 231 truncates the caller's nested arrays
among the first 50 entries; entries from index 50 on are untouched. -/
def capParams (params : List Param) : List Param :=
  (params.take 50).map capOne ++ params.drop 50

mutual
/-- A `Db` handle together with its bound siblings (the `_bind` list):
connection (`none` until lazily acquired), the `_begin` transacting
flag, the `_currentSql` in-flight marker, whether a `_lazyInit` callback
is set, and the bound handles in bind order.  The mutual shape with
`HList` mirrors the recursive cascade of
`beginTransaction`/`commit`/`rollback` (well-founded for the acyclic
bind graphs on which the source itself terminates). -/
inductive Handle where
  | mk : Option Nat → Bool → Option (List Char) → Bool → HList → Handle
/-- The sibling list held by `_bind`. -/
inductive HList where
  | nil : HList
  | cons : Handle → HList → HList
end

/-- The `_conn` field. -/
def Handle.conn : Handle → Option Nat
  | .mk c _ _ _ _ => c

/-- The `_begin` transacting flag. -/
def Handle.beginFlag : Handle → Bool
  | .mk _ bg _ _ _ => bg

/-- The `_currentSql` in-flight marker. -/
def Handle.cur : Handle → Option (List Char)
  | .mk _ _ cur _ _ => cur

/-- Whether a `_lazyInit` callback is set. -/
def Handle.lazy : Handle → Bool
  | .mk _ _ _ lz _ => lz

/-- The `_bind` list. -/
def Handle.binds : Handle → HList
  | .mk _ _ _ _ bs => bs

/-- Replace the `_conn` field. -/
def setConn : Handle → Option Nat → Handle
  | .mk _ bg cur lz bs, c => .mk c bg cur lz bs

/-- Replace the `_currentSql` marker. -/
def setCur : Handle → Option (List Char) → Handle
  | .mk c bg _ lz bs, cur => .mk c bg cur lz bs

/-- A driver command issued on some leased connection, or a run of the
lazy-init callback. -/
inductive DriverOp where
  | beginT : Nat → DriverOp
  | commitT : Nat → DriverOp
  | rollbackT : Nat → DriverOp
  | releaseC : Nat → DriverOp
  | lazyInitCall : DriverOp

mutual
/-- `rollback()` (lines 320-330): cascade to the bound siblings in bind
order, roll back the own connection when transacting and connected,
clear the transacting flag.  Returns the updated handle and the driver
commands in issue order; the method never fails. -/
def rollbackH : Handle → Handle × List DriverOp
  | .mk c bg cur lz bs =>
    (.mk c false cur lz (rollbackL bs).1,
     (rollbackL bs).2 ++ (match c, bg with
       | some cid, true => [DriverOp.rollbackT cid]
       | _, _ => []))
def rollbackL : HList → HList × List DriverOp
  | .nil => (.nil, [])
  | .cons h t =>
    (.cons (rollbackH h).1 (rollbackL t).1, (rollbackH h).2 ++ (rollbackL t).2)
end

/-- `release()` (lines 332-339): always `rollback()` first, then return
the leased connection to its pool and clear it. -/
def releaseH (h : Handle) : Handle × List DriverOp :=
  match Handle.conn (rollbackH h).1 with
  | some cid => (setConn (rollbackH h).1 none, (rollbackH h).2 ++ [DriverOp.releaseC cid])
  | none => ((rollbackH h).1, (rollbackH h).2)

mutual
/-- `commit(keepTrans, reinit)` (lines 300-318): reject when a statement
is in flight, cascade to bound siblings, commit the own connection when
transacting and connected; with `keepTrans` unconditionally call
`this[_conn].beginTransaction()` - a `TypeError` when no connection was
ever acquired - and re-run the lazy-init callback when requested;
without `keepTrans` clear the transacting flag. -/
def commitH (keepTrans reinit : Bool) : Handle → Except DbErr (Handle × List DriverOp)
  | .mk c bg cur lz bs =>
    match cur with
    | some s => .error (.concurrency s)
    | none =>
      match commitL keepTrans reinit bs with
      | .error e => .error e
      | .ok (bs2, ops1) =>
        let ops2 := match c, bg with
          | some cid, true => [DriverOp.commitT cid]
          | _, _ => []
        if keepTrans then
          match c with
          | none => .error .typeErr
          | some cid =>
            .ok (.mk c bg none lz bs2,
              ops1 ++ ops2 ++ [DriverOp.beginT cid]
                ++ (if reinit && lz then [DriverOp.lazyInitCall] else []))
        else .ok (.mk c false none lz bs2, ops1 ++ ops2)
def commitL (keepTrans reinit : Bool) : HList → Except DbErr (HList × List DriverOp)
  | .nil => .ok (.nil, [])
  | .cons h t =>
    match commitH keepTrans reinit h with
    | .error e => .error e
    | .ok (h2, o1) =>
      match commitL keepTrans reinit t with
      | .error e => .error e
      | .ok (t2, o2) => .ok (.cons h2 t2, o1 ++ o2)
end

/-- The handle state while the dispatched statement is in flight: the
connection (acquired as `nc` when none was held) and `_currentSql = sql`
(line 176). -/
def execMid (nc : Nat) (sql : List Char) (h : Handle) : Handle :=
  setCur (match Handle.conn h with
    | none => setConn h (some nc)
    | some _ => h) (some sql)

/-- The control skeleton of one `_exec` run (lines 170-237) around a
driver round-trip with outcome `outcome`: the concurrency guard (line
171, before the `try`, so it leaves all state alone), the `mustInTrans`
guard (line 172), lazy `_init` with result `initRes` acquiring
connection `nc`, and the `catch`/`finally` blocks - on any failure
inside the `try` the error is enriched with the SQL and the capped
summary while the caller's nested parameter arrays are truncated, and
the in-flight marker is always cleared on the way out.  Returns the
call result, the final handle, and the caller-visible parameter list. -/
def execRun {ρ : Type} (mit : Bool) (initRes : Except (List Char) Unit) (nc : Nat)
    (sql : List Char) (params : List Param) (outcome : Except (List Char) ρ)
    (h : Handle) : Except DbErr ρ × Handle × List Param :=
  match Handle.cur h with
  | some s => (.error (.concurrency s), h, params)
  | none =>
    if !(Handle.beginFlag h) && mit then (.error (.mustInTrans sql), h, params)
    else
      match Handle.conn h, initRes with
      | none, .error msg =>
        (.error (.driver msg sql (summaryOf params)), setCur h none, capParams params)
      | _, _ =>
        match outcome with
        | .ok r => (.ok r, setCur (execMid nc sql h) none, params)
        | .error msg =>
          (.error (.driver msg sql (summaryOf params)), setCur (execMid nc sql h) none,
           capParams params)

/-- `queryOne` (lines 249-255) applied to the row list the underlying
query yielded: more than one row is an error, otherwise `rt[0]`
(`undefined`, i.e. `none`, on an empty result). -/
def queryOneRes {α : Type} (rt : List α) : Except DbErr (Option α) :=
  if 1 < rt.length then .error .tooManyRows else .ok rt.head?

/-- `executeOne` (lines 257-263), identical post-processing. -/
def executeOneRes {α : Type} (rt : List α) : Except DbErr (Option α) :=
  if 1 < rt.length then .error .tooManyRows else .ok rt.head?

/-- A JavaScript value held by a configuration property. -/
inductive JsVal where
  | vStr : List Char → JsVal
  | vNum : Int → JsVal
  | vBool : Bool → JsVal

/-- The `options` object given to the `Db` constructor, restricted to the
property the constructor inspects (`name` - absent or any value). -/
structure DbOptions where
  name : Option JsVal

/-- The `Db` constructor (lines 106-112): it only checks
`typeof options.name != 'string'`; any string value - including the
empty string - passes. -/
def dbConstructor (o : DbOptions) : Except DbErr DbOptions :=
  match o.name with
  | some (.vStr _) => .ok o
  | _ => .error .configErr

/-- Where a task performing `_init` (lines 126-143) for a not-yet-seen
pool name stands.  Every `await` is a suspension point, so a task
advances in three atomic segments: the own-property check (line 130),
the resumption after `mysql.createPool` (line 134) - which stores the
fresh pool under the name and, in the same synchronous segment, reads it
back to start `getConnection` (line 136) - and the resumption after
`getConnection`. -/
inductive InitPhase where
  | idle
  | atCreate
  | atConn : Nat → InitPhase
  | done : Nat → InitPhase
deriving DecidableEq, Repr

/-- The shared state of two handles with the same pool name running
`_init` concurrently: the registry entry `dbPools[name]`, the pools
constructed so far (fresh ids 1, 2, ...), and the two task phases. -/
structure RaceSys where
  reg : Option Nat
  created : List Nat
  t1 : InitPhase
  t2 : InitPhase
deriving DecidableEq, Repr

/-- One atomic segment of `_init` executed by a task in phase `p` against
registry `reg` with creation history `created`. -/
def stepPhase (reg : Option Nat) (created : List Nat) :
    InitPhase → Option Nat × List Nat × InitPhase
  | .idle =>
    match reg with
    | none => (reg, created, .atCreate)
    | some p => (reg, created, .atConn p)
  | .atCreate =>
    (some (created.length + 1), created ++ [created.length + 1],
     .atConn (created.length + 1))
  | .atConn p => (reg, created, .done p)
  | .done p => (reg, created, .done p)

/-- Run one segment of task 1 (`who = true`) or task 2 (`who = false`). -/
def raceStep (s : RaceSys) (who : Bool) : RaceSys :=
  if who then
    match stepPhase s.reg s.created s.t1 with
    | (r, c, p) => ⟨r, c, p, s.t2⟩
  else
    match stepPhase s.reg s.created s.t2 with
    | (r, c, p) => ⟨r, c, s.t1, p⟩

/-- Execute a schedule of task segments from the initial state (empty
registry, no pools, both tasks about to enter `_init`). -/
def raceRun (sched : List Bool) : RaceSys :=
  sched.foldl raceStep ⟨none, [], .idle, .idle⟩

/-- A template-bearing INSERT used to exercise the chunked path. -/
def sqlBatchInsert : List Char := "INSERT INTO t VALUES \x7b(?, ?)\x7d,...".toList

/-- The modes of the executions a plan dispatches, in dispatch order. -/
def planModes : Except DbErr ExecPlan → Except DbErr (List Mode)
  | .ok (.chunked es) => .ok (es.map ExecCall.mode)
  | .ok _ => .ok []
  | .error e => .error e

mutual
/-- Is the whole bind tree out of any transaction?  (Conjunction of the
negated `_begin` flags; used to state what `rollback` leaves behind.) -/
def noTxH : Handle → Bool
  | .mk _ bg _ _ bs => !bg && noTxL bs

/-- `noTxH` over a sibling list. -/
def noTxL : HList → Bool
  | .nil => true
  | .cons h t => noTxH h && noTxL t
end

/-- The template-bearing SELECT of the spec's expansion example. -/
def sqlBatchSelect : List Char :=
  "SELECT * FROM t WHERE id = ? OR \x7b(id > ? AND a < ?)\x7d OR ...".toList

/-- The SQL the example must expand to for two groups. -/
def expandedBatchSelect : List Char :=
  "SELECT * FROM t WHERE id = ? OR (id > ? AND a < ?) OR (id > ? AND a < ?)".toList

/-- C2: template expansion of `SELECT * FROM t WHERE id = ? OR
\x7b(id > ? AND a < ?)\x7d OR ...` with flat parameters `[0, [1,2,3,4]]`
yields the SQL expanded to two copies of the fragment joined by ` OR `
together with the flattened parameters `[0,1,2,3,4]`, and the nested
form `[0, [[1,2],[3,4]]]` yields the identical SQL and parameters. -/
theorem pattern_expansion_flat_nested_equiv :
    execPlan Mode.query sqlBatchSelect
        [Param.int 0, Param.arr [Param.int 1, Param.int 2, Param.int 3, Param.int 4]] ⟨none⟩
      = Except.ok (ExecPlan.single Mode.query expandedBatchSelect
          [Param.int 0, Param.int 1, Param.int 2, Param.int 3, Param.int 4])
  ∧ execPlan Mode.query sqlBatchSelect
        [Param.int 0, Param.arr [Param.arr [Param.int 1, Param.int 2],
          Param.arr [Param.int 3, Param.int 4]]] ⟨none⟩
      = Except.ok (ExecPlan.single Mode.query expandedBatchSelect
          [Param.int 0, Param.int 1, Param.int 2, Param.int 3, Param.int 4]) :=
  ⟨rfl, rfl⟩

/-- C4: the interleaving in which both handles pass the own-property
check of line 130 before either assignment of line 134 runs.  Each task
creates its own pool (two pools for one name), the registry ends up with
the second one, and the two handles hold connections from different
pools - against the single-creation guarantee. -/
theorem init_race_creates_two_pools :
    raceRun [true, false, true, false, true, false]
      = ⟨some 2, [1, 2], .done 1, .done 2⟩ :=
  rfl

/-- C6: applied to the rows yielded by the underlying query, `queryOne`
and `executeOne` return an empty result for 0 rows, the row itself for
exactly 1 row, and fail with the too-many-rows error for 2 or more. -/
theorem one_row_result_shape : ∀ {α : Type} (rt : List α),
    (rt = [] → queryOneRes rt = .ok none ∧ executeOneRes rt = .ok none)
  ∧ (∀ r, rt = [r] → queryOneRes rt = .ok (some r) ∧ executeOneRes rt = .ok (some r))
  ∧ (2 ≤ rt.length →
      queryOneRes rt = .error .tooManyRows ∧ executeOneRes rt = .error .tooManyRows) := by
  intro α rt
  refine ⟨?_, ?_, ?_⟩
  · rintro rfl; exact ⟨rfl, rfl⟩
  · rintro r rfl; exact ⟨rfl, rfl⟩
  · intro h2
    have h : 1 < rt.length := by omega
    simp [queryOneRes, executeOneRes, h]

/-- C6 witness: the three row counts at concrete lists. -/
theorem one_row_result_shape_witness :
    queryOneRes ([] : List Nat) = .ok none
  ∧ executeOneRes ([] : List Nat) = .ok none
  ∧ queryOneRes [5] = .ok (some 5)
  ∧ 2 ≤ [1, 2].length
  ∧ queryOneRes [1, 2] = .error .tooManyRows
  ∧ executeOneRes [1, 2] = .error .tooManyRows :=
  ⟨((one_row_result_shape ([] : List Nat)).1 rfl).1,
   ((one_row_result_shape ([] : List Nat)).1 rfl).2,
   ((one_row_result_shape [5]).2.1 5 rfl).1,
   by decide,
   ((one_row_result_shape [1, 2]).2.2 (by decide)).1,
   ((one_row_result_shape [1, 2]).2.2 (by decide)).2⟩

/-- C7 counterexample: the constructor accepts `name: ''` - the check of
line 107 is `typeof options.name != 'string'`, so the empty string
passes, against the claim that an empty name fails. -/
theorem constructor_accepts_empty_name :
    dbConstructor ⟨some (.vStr [])⟩ = .ok ⟨some (.vStr [])⟩ :=
  rfl

/-- C7 amended: construction succeeds exactly when the configured `name`
is a string value - absent or non-string names fail, and any string,
the empty string included, is accepted. -/
theorem constructor_requires_string_name :
    ∀ (o : DbOptions), (∃ r, dbConstructor o = .ok r) ↔ ∃ s, o.name = some (.vStr s) := by
  intro o
  obtain ⟨nm⟩ := o
  cases nm with
  | none => simp [dbConstructor]
  | some v => cases v <;> simp [dbConstructor]

/-- C9: a pattern-bearing call whose batch-source parameter is the empty
array fails with the parameter-count error: the group count is required
to be a strictly positive integer (line 192), and an empty batch yields
zero. -/
theorem empty_batch_param_count_error :
    ∀ (mode : Mode) (sql : List Char) (params : List Param) (opts : ExecOptions)
      (pi : Nat) (tpl : List Char × List Char × List Char),
      params.findIdx? isArrP = some pi →
      params.get? pi = some (Param.arr []) →
      matchTpl sql = some tpl →
      execPlan mode sql params opts = .error .paramCount := by
  intro mode sql params opts pi tpl hfind hget hmatch
  obtain ⟨whole, frag, sep⟩ := tpl
  have hdata : getArrAt params pi = [] := by unfold getArrAt; rw [hget]
  unfold execPlan
  rw [hfind, hmatch]
  simp [hdata, isArrHead, groupCount]

/-- C9 witness: the example statement with batch source `[]`. -/
theorem empty_batch_param_count_error_witness :
    [Param.int 0, Param.arr []].findIdx? isArrP = some 1
  ∧ [Param.int 0, Param.arr []].get? 1 = some (Param.arr [])
  ∧ matchTpl sqlBatchSelect
      = some ("\x7b(id > ? AND a < ?)\x7d OR ...".toList,
          "(id > ? AND a < ?)".toList, " OR ".toList)
  ∧ execPlan Mode.query sqlBatchSelect [Param.int 0, Param.arr []] ⟨none⟩
      = .error .paramCount :=
  ⟨rfl, rfl, rfl,
   empty_batch_param_count_error Mode.query sqlBatchSelect
     [Param.int 0, Param.arr []] ⟨none⟩ 1 _ rfl rfl rfl⟩

/-- C10: `commit(keepOpen = true)` on a handle that never acquired a
connection fails - line 311 calls `beginTransaction` on the undefined
connection unconditionally - while `commit(keepOpen = false)` on the
same handle succeeds as a no-op that clears the transacting flag. -/
theorem commit_keep_open_unconnected : ∀ (bg lz reinit : Bool),
    commitH true reinit (.mk none bg none lz .nil) = .error .typeErr
  ∧ commitH false reinit (.mk none bg none lz .nil)
      = .ok (.mk none false none lz .nil, []) := by
  intro bg lz reinit
  cases bg <;> cases lz <;> cases reinit <;> exact ⟨rfl, rfl⟩

/-- C1 (amended): when the group count exceeds the effective cap and the
cap does not divide it, the chunked path runs `patternNum / maxRow`
full-cap executions sequentially over ascending slices of the batch
data, followed by exactly one remainder execution rebuilt for the exact
remaining group count `patternNum % maxRow`, which is forced to `query`
mode when that remainder exceeds 10 groups and keeps the requested mode
otherwise; the per-chunk results are collected in this order. -/
theorem chunk_plan_full_then_remainder :
    ∀ (mode : Mode) (sql whole frag sep : List Char) (left right data : List Param)
      (is2d : Bool) (placeNum patternNum maxRow : Nat),
      0 < maxRow → maxRow < patternNum → patternNum % maxRow ≠ 0 →
      chunkExecs mode sql whole frag sep left right data is2d placeNum patternNum maxRow =
        (List.range (patternNum / maxRow)).map (fun i =>
          ⟨mode, replaceFirst sql whole (frag ++ repeatStr (sep ++ frag) (maxRow - 1)),
           left ++ concatSpread (jsSlice data (i * (if is2d then maxRow else maxRow * placeNum))
             ((i + 1) * (if is2d then maxRow else maxRow * placeNum))) ++ right⟩)
        ++ [⟨(if patternNum % maxRow > 10 then Mode.query else mode),
            replaceFirst sql whole (frag ++ repeatStr (sep ++ frag) (patternNum % maxRow - 1)),
            left ++ concatSpread (data.drop (if is2d then patternNum / maxRow * maxRow
              else patternNum / maxRow * maxRow * placeNum)) ++ right⟩] := by
  intro mode sql whole frag sep left right data is2d placeNum patternNum maxRow hpos hlt hnd
  have hmod : patternNum - maxRow * (patternNum / maxRow) = patternNum % maxRow := by
    have h := Nat.div_add_mod patternNum maxRow
    omega
  unfold chunkExecs
  rw [hmod]
  rw [if_pos (Nat.pos_of_ne_zero hnd)]

/-- C1 witness: 2500 batch groups against cap 1000 - two full-cap chunks
and a remainder chunk of 500 groups, which (being over 10 groups) runs
in `query` mode. -/
theorem chunk_plan_full_then_remainder_witness :
    0 < 1000 ∧ 1000 < 2500 ∧ 2500 % 1000 ≠ 0
  ∧ chunkExecs Mode.execute sqlBatchInsert "\x7b(?, ?)\x7d,...".toList "(?, ?)".toList
      ",".toList [] [] (List.replicate 2500 (Param.arr [Param.int 1, Param.int 2]))
      true 2 2500 1000 =
      (List.range (2500 / 1000)).map (fun i =>
        ⟨Mode.execute, replaceFirst sqlBatchInsert "\x7b(?, ?)\x7d,...".toList
            ("(?, ?)".toList ++ repeatStr (",".toList ++ "(?, ?)".toList) (1000 - 1)),
         [] ++ concatSpread (jsSlice (List.replicate 2500 (Param.arr [Param.int 1, Param.int 2]))
           (i * (if true then 1000 else 1000 * 2))
           ((i + 1) * (if true then 1000 else 1000 * 2))) ++ []⟩)
      ++ [⟨(if 2500 % 1000 > 10 then Mode.query else Mode.execute),
          replaceFirst sqlBatchInsert "\x7b(?, ?)\x7d,...".toList
            ("(?, ?)".toList ++ repeatStr (",".toList ++ "(?, ?)".toList) (2500 % 1000 - 1)),
          [] ++ concatSpread ((List.replicate 2500 (Param.arr [Param.int 1, Param.int 2])).drop
            (if true then 2500 / 1000 * 1000 else 2500 / 1000 * 1000 * 2)) ++ []⟩] :=
  ⟨by decide, by decide, by decide,
   chunk_plan_full_then_remainder Mode.execute sqlBatchInsert "\x7b(?, ?)\x7d,...".toList
     "(?, ?)".toList ",".toList [] []
     (List.replicate 2500 (Param.arr [Param.int 1, Param.int 2])) true 2 2500 1000
     (by decide) (by decide) (by decide)⟩

/-- C1 counterexample: 20 batch groups with `maxRow = 10` - the group
count exceeds the cap, yet `_exec` dispatches exactly two executions,
both full-cap in the requested mode, and no remainder chunk at all
(`rest = 0` skips the rebuild of lines 218-223), against the claim that
for every statement whose group count exceeds the cap the full-cap
chunks are followed by one remainder chunk. -/
theorem exec_divisible_no_remainder_chunk :
    planModes (execPlan Mode.execute sqlBatchInsert
        [Param.arr (List.replicate 20 (Param.arr [Param.int 1, Param.int 2]))] ⟨some 10⟩)
      = .ok [Mode.execute, Mode.execute] :=
  rfl

/-- `setConn` leaves the connection field as given. -/
theorem setConn_conn (h : Handle) (v : Option Nat) : Handle.conn (setConn h v) = v := by
  cases h; rfl

/-- `setConn` does not touch the transacting flag. -/
theorem setConn_beginFlag (h : Handle) (v : Option Nat) :
    Handle.beginFlag (setConn h v) = Handle.beginFlag h := by
  cases h; rfl

/-- `setConn` does not touch any transacting flag of the tree. -/
theorem setConn_noTx (h : Handle) (v : Option Nat) : noTxH (setConn h v) = noTxH h := by
  cases h; rfl

/-- `rollback` does not touch the own connection. -/
theorem rollbackH_conn (h : Handle) : Handle.conn (rollbackH h).1 = Handle.conn h := by
  cases h; rfl

/-- `rollback` clears the own transacting flag. -/
theorem rollbackH_beginFlag (h : Handle) : Handle.beginFlag (rollbackH h).1 = false := by
  cases h; rfl

mutual
/-- After `rollback`, no handle of the bind tree is transacting. -/
theorem rollbackH_noTx : (h : Handle) → noTxH (rollbackH h).1 = true
  | .mk c bg cur lz bs => by
    simp [rollbackH, noTxH, rollbackL_noTx bs]
/-- After a cascaded `rollback`, no sibling is transacting. -/
theorem rollbackL_noTx : (l : HList) → noTxL (rollbackL l).1 = true
  | .nil => rfl
  | .cons h t => by
    simp [rollbackL, noTxL, rollbackH_noTx h, rollbackL_noTx t]
end

mutual
/-- On a tree with no open transaction, `rollback` is a no-op issuing no
driver command. -/
theorem rollbackH_id : (h : Handle) → noTxH h = true → rollbackH h = (h, [])
  | .mk c bg cur lz bs => by
    intro hn
    cases bg with
    | true => simp [noTxH] at hn
    | false =>
      simp only [noTxH, Bool.not_false, Bool.true_and] at hn
      cases c <;> simp [rollbackH, rollbackL_id bs hn]
/-- List version of `rollbackH_id`. -/
theorem rollbackL_id : (l : HList) → noTxL l = true → rollbackL l = (l, [])
  | .nil => fun _ => rfl
  | .cons h t => by
    intro hn
    simp only [noTxL, Bool.and_eq_true] at hn
    simp [rollbackL, rollbackH_id h hn.1, rollbackL_id t hn.2]
end

/-- C5: `release()` always rolls back first (issuing exactly the
`rollback` cascade commands, then - when a connection was leased - the
return of that connection to its pool), leaves the handle without
connection and out of any transaction, and is idempotent: an immediately
repeated `release()` changes nothing, issues no driver command, and
raises no error (the function is total). -/
theorem release_rolls_back_then_idempotent :
    ∀ (h : Handle),
      Handle.conn (releaseH h).1 = none
    ∧ Handle.beginFlag (releaseH h).1 = false
    ∧ (releaseH h).2 = (rollbackH h).2 ++ (match Handle.conn h with
        | some cid => [DriverOp.releaseC cid]
        | none => [])
    ∧ releaseH (releaseH h).1 = ((releaseH h).1, []) := by
  intro h
  have hconn := rollbackH_conn h
  have hnx := rollbackH_noTx h
  have hbg := rollbackH_beginFlag h
  cases hc : Handle.conn (rollbackH h).1 with
  | none =>
    rw [hc] at hconn
    refine ⟨?_, ?_, ?_, ?_⟩
    · simp [releaseH, hc]
    · simp [releaseH, hc, hbg]
    · simp [releaseH, hc, ← hconn]
    · simp [releaseH, hc, rollbackH_id _ hnx]
  | some cid =>
    rw [hc] at hconn
    have hnx2 : noTxH (setConn (rollbackH h).1 none) = true := by
      rw [setConn_noTx]; exact hnx
    refine ⟨?_, ?_, ?_, ?_⟩
    · simp [releaseH, hc, setConn_conn]
    · simp [releaseH, hc, setConn_beginFlag, hbg]
    · simp [releaseH, hc, ← hconn]
    · simp [releaseH, hc, rollbackH_id _ hnx2, setConn_conn]

/-- C3: the single-flight discipline of `_exec`.  (1) While a statement
is in flight on a handle, a second call fails with the concurrency error
and changes nothing - in particular the marker of the in-flight call is
untouched.  (2) A run that starts with no in-flight statement always
ends with the marker cleared, on success and on every failure path.
(3) Between dispatch and completion the marker holds the running SQL.
(4) Hence a subsequent call issued after the first resolved - whatever
its outcome - is never rejected with the concurrency error. -/
theorem single_flight_marker_lifecycle :
    ∀ {ρ : Type} (mit : Bool) (initRes : Except (List Char) Unit) (nc : Nat)
      (sql s : List Char) (params : List Param) (outcome : Except (List Char) ρ)
      (h : Handle),
      (Handle.cur h = some s →
        execRun mit initRes nc sql params outcome h
          = (.error (.concurrency s), h, params))
    ∧ (Handle.cur h = none →
        Handle.cur (execRun mit initRes nc sql params outcome h).2.1 = none)
    ∧ Handle.cur (execMid nc sql h) = some sql
    ∧ (Handle.cur h = none → ∀ (s2 : List Char),
        (execRun mit initRes nc sql params outcome
            ((execRun mit initRes nc sql params outcome h).2.1)).1
          ≠ .error (.concurrency s2)) := by
  intro ρ mit initRes nc sql s params outcome h
  cases h with
  | mk c bg cur lz bs =>
    refine ⟨?_, ?_, ?_, ?_⟩
    · intro hcur
      simp only [Handle.cur] at hcur
      subst hcur
      rfl
    · intro hcur
      simp only [Handle.cur] at hcur
      subst hcur
      cases bg <;> cases mit <;> cases c <;> cases initRes <;> cases outcome <;> rfl
    · cases c <;> rfl
    · intro hcur s2
      simp only [Handle.cur] at hcur
      subst hcur
      cases bg <;> cases mit <;> cases c <;> cases initRes <;> cases outcome <;>
        simp [execRun, execMid, setCur, setConn, Handle.cur, Handle.beginFlag, Handle.conn]

/-- C3 witness: a handle with `'A'` in flight rejects a second call and
keeps its state; an idle connected handle runs, ends with the marker
cleared, exposes the running SQL mid-flight, and accepts the next call. -/
theorem single_flight_marker_lifecycle_witness :
    execRun false (.ok ()) 0 "S".toList [] (Except.ok (0 : Nat))
        (Handle.mk none false (some "A".toList) false .nil)
      = (.error (.concurrency "A".toList),
         Handle.mk none false (some "A".toList) false .nil, [])
  ∧ Handle.cur (execRun false (.ok ()) 0 "S".toList [] (Except.ok (0 : Nat))
        (Handle.mk (some 1) true none false .nil)).2.1 = none
  ∧ Handle.cur (execMid 0 "S".toList (Handle.mk (some 1) true none false .nil))
      = some "S".toList
  ∧ (execRun false (.ok ()) 0 "S".toList [] (Except.ok (0 : Nat))
        ((execRun false (.ok ()) 0 "S".toList [] (Except.ok (0 : Nat))
          (Handle.mk (some 1) true none false .nil)).2.1)).1
      ≠ .error (.concurrency "B".toList) :=
  ⟨(@single_flight_marker_lifecycle Nat false (.ok ()) 0 "S".toList "A".toList []
      (Except.ok 0) (Handle.mk none false (some "A".toList) false .nil)).1 rfl,
   (@single_flight_marker_lifecycle Nat false (.ok ()) 0 "S".toList "A".toList []
      (Except.ok 0) (Handle.mk (some 1) true none false .nil)).2.1 rfl,
   (@single_flight_marker_lifecycle Nat false (.ok ()) 0 "S".toList "A".toList []
      (Except.ok 0) (Handle.mk (some 1) true none false .nil)).2.2.1,
   (@single_flight_marker_lifecycle Nat false (.ok ()) 0 "S".toList "A".toList []
      (Except.ok 0) (Handle.mk (some 1) true none false .nil)).2.2.2 rfl "B".toList⟩

/-- C8: when `_exec` fails, building the bounded summary mutates the
caller's parameter data in place: `params.slice(0, 50)` shares the
nested arrays, so the `splice` of line 231 truncates every nested array
of more than 5 elements among the first 50 top-level parameters to its
first 5 elements plus an elision note - the parameter list a failing
call leaves behind is `capParams params`, not `params`. -/
theorem error_path_mutates_params :
    ∀ (params : List Param) (i : Nat) (xs : List Param) (mit : Bool) (nc : Nat)
      (sql msg : List Char) (h : Handle),
      i < 50 → params[i]? = some (Param.arr xs) → 5 < xs.length →
      Handle.cur h = none → (!Handle.beginFlag h && mit) = false →
      (execRun mit (.ok ()) nc sql params
          (Except.error msg : Except (List Char) Unit) h).2.2 = capParams params
    ∧ (capParams params)[i]?
        = some (Param.arr (xs.take 5 ++ [Param.str (elisionNote (xs.length - 5))])) := by
  intro params i xs mit nc sql msg h hi hget hxs hcur hbm
  constructor
  · cases h with
    | mk c bg cur lz bs =>
      simp only [Handle.cur] at hcur
      subst hcur
      simp only [Handle.beginFlag] at hbm
      cases c <;> simp [execRun, Handle.cur, Handle.beginFlag, hbm]
  · have hilen : i < params.length := by
      by_contra hc
      rw [List.getElem?_eq_none (by omega)] at hget
      simp at hget
    unfold capParams
    rw [List.getElem?_append_left (by simp only [List.length_map, List.length_take]; omega)]
    rw [List.getElem?_map]
    rw [List.getElem?_take_of_lt hi]
    rw [hget]
    simp [capOne, hxs]

/-- C8 witness: a failing call with one nested 7-element array leaves the
caller's array truncated to 5 elements plus `'... 2 items ...'`. -/
theorem error_path_mutates_params_witness :
    (0 : Nat) < 50
  ∧ [Param.arr [Param.int 1, Param.int 2, Param.int 3, Param.int 4, Param.int 5,
      Param.int 6, Param.int 7]][0]?
      = some (Param.arr [Param.int 1, Param.int 2, Param.int 3, Param.int 4, Param.int 5,
          Param.int 6, Param.int 7])
  ∧ 5 < ([Param.int 1, Param.int 2, Param.int 3, Param.int 4, Param.int 5,
      Param.int 6, Param.int 7] : List Param).length
  ∧ Handle.cur (Handle.mk (some 1) true none false .nil) = none
  ∧ (!Handle.beginFlag (Handle.mk (some 1) true none false .nil) && false) = false
  ∧ (execRun false (.ok ()) 0 "S".toList
        [Param.arr [Param.int 1, Param.int 2, Param.int 3, Param.int 4, Param.int 5,
          Param.int 6, Param.int 7]]
        (Except.error "boom".toList : Except (List Char) Unit)
        (Handle.mk (some 1) true none false .nil)).2.2
      = capParams [Param.arr [Param.int 1, Param.int 2, Param.int 3, Param.int 4,
          Param.int 5, Param.int 6, Param.int 7]]
  ∧ (capParams [Param.arr [Param.int 1, Param.int 2, Param.int 3, Param.int 4, Param.int 5,
        Param.int 6, Param.int 7]])[0]?
      = some (Param.arr ([Param.int 1, Param.int 2, Param.int 3, Param.int 4, Param.int 5,
          Param.int 6, Param.int 7].take 5
        ++ [Param.str (elisionNote ([Param.int 1, Param.int 2, Param.int 3, Param.int 4,
            Param.int 5, Param.int 6, Param.int 7].length - 5))])) :=
  ⟨by decide, rfl, by decide, rfl, rfl,
   (error_path_mutates_params
      [Param.arr [Param.int 1, Param.int 2, Param.int 3, Param.int 4, Param.int 5,
        Param.int 6, Param.int 7]] 0
      [Param.int 1, Param.int 2, Param.int 3, Param.int 4, Param.int 5,
        Param.int 6, Param.int 7] false 0 "S".toList "boom".toList
      (Handle.mk (some 1) true none false .nil)
      (by decide) rfl (by decide) rfl rfl).1,
   (error_path_mutates_params
      [Param.arr [Param.int 1, Param.int 2, Param.int 3, Param.int 4, Param.int 5,
        Param.int 6, Param.int 7]] 0
      [Param.int 1, Param.int 2, Param.int 3, Param.int 4, Param.int 5,
        Param.int 6, Param.int 7] false 0 "S".toList "boom".toList
      (Handle.mk (some 1) true none false .nil)
      (by decide) rfl (by decide) rfl rfl).2⟩
